import Mathlib

/-!
Verification of the real-time pub/sub connection manager and the background
task scheduler of the bachelor-league backend
(src/backend/websocket_manager.py, src/backend/background_tasks.py).

The Python dictionaries are embedded as association lists (first match wins,
as python dict keys are unique), python sets of strings as duplicate-free
lists (insertion appends if missing, discard removes), timestamps as natural
numbers counting seconds since the epoch (datetime.utcnow().second is the
second-within-minute, i.e. `t % 60`), and a websocket transport as an opaque
numeric handle together with a function `wsOk : Nat → Bool` saying whether a
send on that handle succeeds during the operation under consideration.
-/

namespace BachelorLeague

/-- Lookup in an association list: first matching key, like a python dict. -/
def lookupA {κ β : Type} [DecidableEq κ] : List (κ × β) → κ → Option β
  | [], _ => none
  | p :: rest, k => if p.1 = k then some p.2 else lookupA rest k

/-- `d[k] = v` on a python dict: replace the existing entry, else append. -/
def updateA {κ β : Type} [DecidableEq κ] : List (κ × β) → κ → β → List (κ × β)
  | [], k, v => [(k, v)]
  | p :: rest, k, v => if p.1 = k then (k, v) :: rest else p :: updateA rest k v

/-- `del d[k]` / `d.pop(k, None)` on a python dict (keys are unique, so
removing every occurrence agrees with removing the single entry). -/
def eraseA {κ β : Type} [DecidableEq κ] : List (κ × β) → κ → List (κ × β)
  | [], _ => []
  | p :: rest, k => if p.1 = k then eraseA rest k else p :: eraseA rest k

/-- `s.add(x)` on a python set (sets are embedded as duplicate-free lists). -/
def insertS (x : String) (l : List String) : List String :=
  if x ∈ l then l else l ++ [x]

/-- `s.discard(x)` on a python set. -/
def eraseS (x : String) : List String → List String
  | [] => []
  | y :: rest => if y = x then eraseS x rest else y :: eraseS x rest

/-- Connection dataclass (websocket_manager.py, class Connection). -/
structure Connection where
  websocket : Nat
  connection_id : String
  user_id : Option String := none
  username : Option String := none
  subscribed_shows : List String := []
  connected_at : Nat := 0
  last_ping : Nat := 0
  is_authenticated : Bool := false
deriving DecidableEq

/-- LiveStats dataclass (websocket_manager.py, class LiveStats); the
`top_performer` dict is flattened into its two fields. -/
structure LiveStats where
  show_id : String
  viewers_count : Nat := 0
  active_predictions : Nat := 0
  total_points_awarded : Int := 0
  recent_events : Nat := 0
  top_performer_username : String := "TBD"
  top_performer_points : Int := 0
  updated_at : Nat := 0
deriving DecidableEq

/-- A websocket message dict, restricted to the keys the manager reads or
writes.  Absent keys are `none` (`dict.get` with a default models them);
all remaining payload keys are kept opaque in `extra`. -/
structure Msg where
  type : String
  points : Option Int := none
  user_total_points : Option Int := none
  username : Option String := none
  show_id : Option String := none
  timestamp : Option Nat := none
  stats : Option LiveStats := none
  extra : List (String × String) := []
deriving DecidableEq

/-- ConnectionManager state (websocket_manager.py): the four registries plus
the rate-limit table.  A rate-limit key `f"{connection_id}:{now.second}"` is
embedded as the pair (connection id, second-within-minute). -/
structure ConnectionManager where
  active_connections : List (String × Connection) := []
  show_subscribers : List (String × List String) := []
  user_connections : List (String × String) := []
  live_stats : List (String × LiveStats) := []
  rate_limits : List ((String × Nat) × Nat) := []
deriving DecidableEq

/-- The manager as built by `ConnectionManager.__init__`: every registry
empty. -/
def initManager : ConnectionManager := {}

/-- Subscriber set of a show as read through the defaultdict: empty when the
key is absent. -/
def subsOf (m : ConnectionManager) (sid : String) : List String :=
  (lookupA m.show_subscribers sid).getD []

/-- ConnectionManager._check_rate_limit.  Returns the verdict and the manager
with the mutated `rate_limits` table: a key present for this connection and
wall-clock second rejects immediately (so at most ONE message per second is
admitted despite the comment in the source); otherwise the key is recorded
and entries older than two seconds are dropped. -/
def check_rate_limit (now : Nat) (m : ConnectionManager) (cid : String) :
    Bool × ConnectionManager :=
  let key := (cid, now % 60)
  if (lookupA m.rate_limits key).isSome then
    (false, m)
  else
    let rl := updateA m.rate_limits key now
    let rl := rl.filter (fun p => decide (¬ p.2 < now - 2))
    (true, { m with rate_limits := rl })

/-- The loop of ConnectionManager._cleanup_connection over
`connection.subscribed_shows`: discard the connection from each show's
subscriber set (the defaultdict read creates the key) and, when the show has
a live-stats record, refresh its viewer count from the shrunk set. -/
def cleanup_shows (cid : String) : List String →
    List (String × List String) → List (String × LiveStats) →
    List (String × List String) × List (String × LiveStats)
  | [], ss, ls => (ss, ls)
  | sid :: rest, ss, ls =>
    let subs := eraseS cid ((lookupA ss sid).getD [])
    let ss := updateA ss sid subs
    let ls := match lookupA ls sid with
      | some st => updateA ls sid { st with viewers_count := subs.length }
      | none => ls
    cleanup_shows cid rest ss ls

/-- ConnectionManager._cleanup_connection: no-op on an unknown identifier,
otherwise removes the connection from every subscribed show (updating viewer
counts), drops the reverse user mapping, and deletes the connection. -/
def cleanup_connection (m : ConnectionManager) (cid : String) : ConnectionManager :=
  match lookupA m.active_connections cid with
  | none => m
  | some conn =>
    let p := cleanup_shows cid conn.subscribed_shows m.show_subscribers m.live_stats
    { m with
      show_subscribers := p.1
      live_stats := p.2
      user_connections := match conn.user_id with
        | some uid => eraseA m.user_connections uid
        | none => m.user_connections
      active_connections := eraseA m.active_connections cid }

/-- ConnectionManager._send_to_connection: unknown connection or rate-limit
rejection returns False with no delivery; a transport failure cleans the
connection up and returns False; success delivers exactly one message.  The
third component lists the deliveries actually made. -/
def send_to_connection (wsOk : Nat → Bool) (now : Nat) (m : ConnectionManager)
    (cid : String) (msg : Msg) : ConnectionManager × Bool × List (String × Msg) :=
  match lookupA m.active_connections cid with
  | none => (m, false, [])
  | some conn =>
    let r := check_rate_limit now m cid
    if r.1 then
      if wsOk conn.websocket then (r.2, true, [(cid, msg)])
      else (cleanup_connection r.2 cid, false, [])
    else (r.2, false, [])

/-- Default LiveStats record as created by `LiveStats(show_id=show_id)`. -/
def defaultStats (sid : String) (now : Nat) : LiveStats :=
  { show_id := sid, updated_at := now }

/-- The live-stats message sent by _subscribe_to_show. -/
def liveStatsMsg (sid : String) (st : LiveStats) (now : Nat) : Msg :=
  { type := "live_stats", show_id := some sid, stats := some st,
    timestamp := some now }

/-- ConnectionManager._subscribe_to_show: register the show in both
directions, create the stats record if needed, refresh the viewer count, and
send the current stats to the subscriber (that trailing send may itself evict
the connection if its transport fails). -/
def subscribe_to_show (wsOk : Nat → Bool) (now : Nat) (m : ConnectionManager)
    (cid sid : String) : ConnectionManager × List (String × Msg) :=
  match lookupA m.active_connections cid with
  | none => (m, [])
  | some conn =>
    let conn := { conn with subscribed_shows := insertS sid conn.subscribed_shows }
    let subs := insertS cid ((lookupA m.show_subscribers sid).getD [])
    let st := (lookupA m.live_stats sid).getD (defaultStats sid now)
    let st := { st with viewers_count := subs.length }
    let m := { m with
      active_connections := updateA m.active_connections cid conn
      show_subscribers := updateA m.show_subscribers sid subs
      live_stats := updateA m.live_stats sid st }
    let r := send_to_connection wsOk now m cid (liveStatsMsg sid st now)
    (r.1, r.2.2)

/-- The welcome message sent by ConnectionManager.connect. -/
def welcomeMsg (cid : String) (now : Nat) : Msg :=
  { type := "connected", timestamp := some now,
    extra := [("connection_id", cid),
              ("message", "Connected to Bachelor Fantasy League real-time updates")] }

/-- ConnectionManager.connect: store a fresh connection record, optionally
subscribe it to a show, and send the welcome message.  The uuid4 identifier
is passed in as `cid`. -/
def connect (wsOk : Nat → Bool) (now : Nat) (m : ConnectionManager)
    (ws : Nat) (cid : String) (sid : Option String) :
    ConnectionManager × List (String × Msg) :=
  let conn : Connection :=
    { websocket := ws, connection_id := cid, connected_at := now, last_ping := now }
  let m := { m with active_connections := updateA m.active_connections cid conn }
  let p := match sid with
    | some s => subscribe_to_show wsOk now m cid s
    | none => (m, [])
  let r := send_to_connection wsOk now p.1 cid (welcomeMsg cid now)
  (r.1, p.2 ++ r.2.2)

/-- Resolution of a websocket handle to a connection id — the linear scan
`for conn_id, conn in self.active_connections.items(): if conn.websocket ==
websocket` shared by disconnect / authenticate / subscribe / unsubscribe. -/
def findCid (m : ConnectionManager) (ws : Nat) : Option String :=
  (m.active_connections.find? (fun p => p.2.websocket == ws)).map (fun p => p.1)

/-- The loop of ConnectionManager.disconnect over the connection's shows:
discard the id from each subscriber set.  Unlike _cleanup_connection it does
NOT touch the live-stats viewer counts. -/
def discard_from_shows (cid : String) : List String →
    List (String × List String) → List (String × List String)
  | [], ss => ss
  | sid :: rest, ss =>
    discard_from_shows cid rest (updateA ss sid (eraseS cid ((lookupA ss sid).getD [])))

/-- ConnectionManager.disconnect: resolve the websocket, remove the
connection from every subscriber set (leaving viewer counts untouched), drop
the reverse user mapping and delete the record. -/
def disconnect (m : ConnectionManager) (ws : Nat) : ConnectionManager :=
  match findCid m ws with
  | none => m
  | some cid =>
    match lookupA m.active_connections cid with
    | none => m
    | some conn =>
      { m with
        show_subscribers := discard_from_shows cid conn.subscribed_shows m.show_subscribers
        user_connections := match conn.user_id with
          | some uid => eraseA m.user_connections uid
          | none => m.user_connections
        active_connections := eraseA m.active_connections cid }

/-- ConnectionManager.unsubscribe_from_show: resolve the websocket, discard
the show from the connection and the connection from the show, and refresh
the viewer count when a stats record exists. -/
def unsubscribe_from_show (m : ConnectionManager) (ws : Nat) (sid : String) :
    ConnectionManager :=
  match findCid m ws with
  | none => m
  | some cid =>
    match lookupA m.active_connections cid with
    | none => m
    | some conn =>
      let conn := { conn with subscribed_shows := eraseS sid conn.subscribed_shows }
      let subs := eraseS cid ((lookupA m.show_subscribers sid).getD [])
      { m with
        active_connections := updateA m.active_connections cid conn
        show_subscribers := updateA m.show_subscribers sid subs
        live_stats := match lookupA m.live_stats sid with
          | some st => updateA m.live_stats sid { st with viewers_count := subs.length }
          | none => m.live_stats }

/-- The confirmation message sent by authenticate_connection. -/
def authMsg (uid : String) (uname : Option String) (now : Nat) : Msg :=
  { type := "authentication_success", username := uname,
    timestamp := some now, extra := [("user_id", uid)] }

/-- ConnectionManager.authenticate_connection: resolve the websocket, record
the identity on the connection, point the reverse user mapping at it (last
writer wins) and send the confirmation. -/
def authenticate_connection (wsOk : Nat → Bool) (now : Nat)
    (m : ConnectionManager) (ws : Nat) (uid : String) (uname : Option String) :
    ConnectionManager × List (String × Msg) :=
  match findCid m ws with
  | none => (m, [])
  | some cid =>
    match lookupA m.active_connections cid with
    | none => (m, [])
    | some conn =>
      let conn := { conn with user_id := some uid, username := uname,
                              is_authenticated := true }
      let m := { m with
        active_connections := updateA m.active_connections cid conn
        user_connections := updateA m.user_connections uid cid }
      let r := send_to_connection wsOk now m cid (authMsg uid uname now)
      (r.1, r.2.2)

/-- ConnectionManager.send_to_user: no-op when the user has no mapped
connection, otherwise one send with the usual failure handling. -/
def send_to_user (wsOk : Nat → Bool) (now : Nat) (m : ConnectionManager)
    (uid : String) (msg : Msg) : ConnectionManager × List (String × Msg) :=
  match lookupA m.user_connections uid with
  | none => (m, [])
  | some cid =>
    let r := send_to_connection wsOk now m cid msg
    (r.1, r.2.2)

/-- Per-record part of ConnectionManager._update_show_stats: bump the
counters according to the message type and stamp `updated_at`.  The viewer
count is never touched here. -/
def statsApply (st : LiveStats) (msg : Msg) (now : Nat) : LiveStats :=
  let st :=
    if msg.type = "score_update" then
      let st := { st with
        total_points_awarded := st.total_points_awarded + msg.points.getD 0
        recent_events := st.recent_events + 1 }
      let up := msg.user_total_points.getD 0
      if up > st.top_performer_points then
        { st with top_performer_username := (msg.username.getD "Unknown")
                  top_performer_points := up }
      else st
    else if msg.type = "episode_event" then
      { st with recent_events := st.recent_events + 1 }
    else if msg.type = "user_prediction" then
      { st with active_predictions := st.active_predictions + 1 }
    else st
  { st with updated_at := now }

/-- ConnectionManager._update_show_stats: create the record lazily, then
apply the per-message counter update. -/
def update_show_stats (now : Nat) (m : ConnectionManager) (sid : String)
    (msg : Msg) : ConnectionManager :=
  let st := (lookupA m.live_stats sid).getD (defaultStats sid now)
  { m with live_stats := updateA m.live_stats sid (statsApply st msg now) }

/-- The fan-out loop of ConnectionManager.broadcast_to_show: send to each
subscriber in turn threading the manager state, collecting the failed ids
(in subscriber order) and the actual deliveries. -/
def send_loop (wsOk : Nat → Bool) (now : Nat) :
    List String → ConnectionManager → Msg →
    ConnectionManager × List String × List (String × Msg)
  | [], m, _ => (m, [], [])
  | cid :: rest, m, msg =>
    let r := send_to_connection wsOk now m cid msg
    let q := send_loop wsOk now rest r.1 msg
    (q.1, (if r.2.1 then q.2.1 else cid :: q.2.1), r.2.2 ++ q.2.2)

/-- ConnectionManager.broadcast_to_show: early return when the show has no
subscriber-set entry at all; otherwise stamp the message with the show id and
the send timestamp, fan out over a snapshot of the subscriber set, clean up
every failed connection afterwards, and update the show statistics. -/
def broadcast_to_show (wsOk : Nat → Bool) (now : Nat) (m : ConnectionManager)
    (sid : String) (msg : Msg) : ConnectionManager × List (String × Msg) :=
  match lookupA m.show_subscribers sid with
  | none => (m, [])
  | some subscribers =>
    let msg := { msg with show_id := some sid, timestamp := some now }
    let r := send_loop wsOk now subscribers m msg
    let m := r.2.1.foldl (fun acc cid => cleanup_connection acc cid) r.1
    (update_show_stats now m sid msg, r.2.2)

/-! ## Background task scheduler (src/backend/background_tasks.py)

Jobs are zero-argument coroutines; their outcome at completion time is
embedded as an `Except String String` (error message or result payload), so
the execution wrapper's two branches are both covered without reproducing
the job bodies.  The `stats` dict of the manager is flattened into the
fields the scheduler itself writes. -/

/-- TaskStatus enum. -/
inductive TaskStatus where
  | pending | running | completed | failed | cancelled
deriving DecidableEq

/-- TaskResult dataclass. -/
structure TaskResult where
  task_id : String
  status : TaskStatus
  result : Option String := none
  error : Option String := none
  started_at : Option Nat := none
  completed_at : Option Nat := none
  duration_seconds : Option Nat := none
deriving DecidableEq

/-- The schedule_config dict: interval components, cron hour/minute, and the
one-shot run_at timestamp; absent keys are `none`. -/
structure ScheduleConfig where
  days : Option Nat := none
  hours : Option Nat := none
  minutes : Option Nat := none
  seconds : Option Nat := none
  hour : Option Nat := none
  minute : Option Nat := none
  run_at : Option Nat := none
deriving DecidableEq

/-- TaskPriority enum. -/
inductive TaskPriority where
  | low | normal | high | critical
deriving DecidableEq

/-- ScheduledTask dataclass; the job `function` reference is kept abstract
(outcomes are supplied at completion events). -/
structure ScheduledTask where
  id : String
  name : String
  schedule_type : String
  schedule_config : ScheduleConfig
  priority : TaskPriority := TaskPriority.normal
  enabled : Bool := true
  last_run : Option Nat := none
  next_run : Option Nat := none
  run_count : Nat := 0
  failure_count : Nat := 0
  max_failures : Nat := 3
deriving DecidableEq

/-- BackgroundTaskManager._calculate_next_run with seconds-since-epoch time:
interval adds the configured duration, cron targets today's hh:mm (tomorrow
when already past), once fires at run_at or immediately. -/
def calculate_next_run (schedule_type : String) (config : ScheduleConfig)
    (now : Nat) : Nat :=
  if schedule_type = "interval" then
    now + 86400 * config.days.getD 0 + 3600 * config.hours.getD 0 +
      60 * config.minutes.getD 0 + config.seconds.getD 0
  else if schedule_type = "cron" then
    let dayStart := now - now % 86400
    let tgt := dayStart + 3600 * config.hour.getD (now % 86400 / 3600) +
      60 * config.minute.getD 0
    if tgt ≤ now then tgt + 86400 else tgt
  else if schedule_type = "once" then
    config.run_at.getD now
  else now

/-- Success branch of _run_task_with_error_handling on the task record:
stamp last_run, bump run_count, reset the failure counter and compute the
next run from the trigger. -/
def task_on_success (now : Nat) (t : ScheduledTask) : ScheduledTask :=
  { t with last_run := some now, run_count := t.run_count + 1,
           failure_count := 0,
           next_run := some (calculate_next_run t.schedule_type t.schedule_config now) }

/-- Failure branch of _run_task_with_error_handling on the task record:
bump the failure counter; at the max-failures threshold disable the task
WITHOUT touching next_run, otherwise reschedule with a `2^failure_count`
minute exponential backoff. -/
def task_on_failure (now : Nat) (t : ScheduledTask) : ScheduledTask :=
  let t := { t with failure_count := t.failure_count + 1 }
  if t.failure_count ≥ t.max_failures then { t with enabled := false }
  else { t with next_run := some (now + 60 * 2 ^ t.failure_count) }

/-- BackgroundTaskManager._run_task_with_error_handling, restricted to its
mutations of the task record and the TaskResult it closes over (the source
only computes a duration on failure when started_at is set). -/
def run_task_with_error_handling (now : Nat) (outcome : Except String String)
    (t : ScheduledTask) (r : TaskResult) : ScheduledTask × TaskResult :=
  match outcome with
  | .ok payload =>
    (task_on_success now t,
     { r with status := TaskStatus.completed, result := some payload,
              completed_at := some now,
              duration_seconds := some (now - r.started_at.getD now) })
  | .error e =>
    (task_on_failure now t,
     { r with status := TaskStatus.failed, error := some e,
              completed_at := some now,
              duration_seconds := r.started_at.map (fun s => now - s) })

/-- `k` consecutive failing executions of a task's job, each handled by the
execution wrapper's failure branch. -/
def apply_failures (now : Nat) (t : ScheduledTask) : Nat → ScheduledTask
  | 0 => t
  | k + 1 => task_on_failure now (apply_failures now t k)

/-- BackgroundTaskManager state: the task table, the keys of running_tasks
(insertion order, one per in-flight execution), the result table and the
flattened stats counters. -/
structure BackgroundTaskManager where
  tasks : List (String × ScheduledTask) := []
  running_tasks : List String := []
  task_results : List (String × TaskResult) := []
  tasks_completed : Nat := 0
  tasks_failed : Nat := 0
  total_runtime_seconds : Nat := 0
  last_ml_update : Option Nat := none
deriving DecidableEq

/-- BackgroundTaskManager._execute_task: record a RUNNING TaskResult and
register the new in-flight execution under the task's id. -/
def execute_task (now : Nat) (tm : BackgroundTaskManager) (tid : String) :
    BackgroundTaskManager :=
  { tm with
    task_results := updateA tm.task_results tid
      { task_id := tid, status := TaskStatus.running, started_at := some now }
    running_tasks := tm.running_tasks ++ [tid] }

/-- One iteration of the loop in _check_and_run_tasks: skip disabled tasks,
tasks with no next_run, tasks not yet due, and tasks already executing;
launch the rest. -/
def tick_one (now : Nat) (acc : BackgroundTaskManager)
    (p : String × ScheduledTask) : BackgroundTaskManager :=
  if p.2.enabled then
    match p.2.next_run with
    | some nr => if nr ≤ now then
        (if p.1 ∈ acc.running_tasks then acc else execute_task now acc p.1)
      else acc
    | none => acc
  else acc

/-- BackgroundTaskManager._check_and_run_tasks: one scheduling tick over the
task table. -/
def check_and_run_tasks (now : Nat) (tm : BackgroundTaskManager) :
    BackgroundTaskManager :=
  tm.tasks.foldl (tick_one now) tm

/-- Completion of an in-flight execution: the wrapper updates the task record
and its TaskResult, bumps the stats counters, and the finally clause removes
the id from running_tasks. -/
def finish_task (now : Nat) (outcome : Except String String) (tid : String)
    (tm : BackgroundTaskManager) : BackgroundTaskManager :=
  match lookupA tm.tasks tid, lookupA tm.task_results tid with
  | some t, some r =>
    let p := run_task_with_error_handling now outcome t r
    { tm with
      tasks := updateA tm.tasks tid p.1
      task_results := updateA tm.task_results tid p.2
      tasks_completed := tm.tasks_completed + (if outcome.isOk then 1 else 0)
      tasks_failed := tm.tasks_failed + (if outcome.isOk then 0 else 1)
      total_runtime_seconds := tm.total_runtime_seconds +
        (if outcome.isOk then p.2.duration_seconds.getD 0 else 0)
      running_tasks := tm.running_tasks.erase tid }
  | _, _ => { tm with running_tasks := tm.running_tasks.erase tid }

/-- BackgroundTaskManager.update_ml_predictions, restricted to its effect on
the manager state: all database and broadcast work is external; on success
the job stamps stats['last_ml_update'], on failure it raises before the
stamp.  It never touches tasks, running_tasks or task_results. -/
def update_ml_predictions (ok : Bool) (now : Nat) (tm : BackgroundTaskManager) :
    BackgroundTaskManager × Bool :=
  if ok then ({ tm with last_ml_update := some now }, true) else (tm, false)

/-- BackgroundTaskManager.trigger_ml_updates: the manual trigger simply
awaits update_ml_predictions directly, outside the scheduler and outside the
execution wrapper. -/
def trigger_ml_updates (ok : Bool) (now : Nat) (tm : BackgroundTaskManager) :
    BackgroundTaskManager × Bool :=
  update_ml_predictions ok now tm

/-- The interleaving semantics of the scheduler: a state evolves by
scheduling ticks and by completions of in-flight executions (which can
interleave with later ticks in any order). -/
inductive TMStep : BackgroundTaskManager → BackgroundTaskManager → Prop where
  | tick {tm : BackgroundTaskManager} (now : Nat) :
      TMStep tm (check_and_run_tasks now tm)
  | finish {tm : BackgroundTaskManager} (now : Nat)
      (outcome : Except String String) (tid : String)
      (hrun : tid ∈ tm.running_tasks) :
      TMStep tm (finish_task now outcome tid tm)

/-! ## Lemmas about the dict and set embeddings -/

@[simp]
theorem lookupA_updateA {κ β : Type} [DecidableEq κ] (l : List (κ × β))
    (k : κ) (v : β) (k' : κ) :
    lookupA (updateA l k v) k' = if k = k' then some v else lookupA l k' := by
  by_cases h : k = k'
  · subst h
    induction l with
    | nil => simp [updateA, lookupA]
    | cons p rest ih =>
      by_cases hp : p.1 = k <;> simp [updateA, lookupA, hp, ih]
  · induction l with
    | nil => simp [updateA, lookupA, h]
    | cons p rest ih =>
      by_cases hp : p.1 = k
      · have hq : ¬ p.1 = k' := fun he => h (hp.symm.trans he)
        simp [updateA, lookupA, hp, hq, h, ih]
      · have h2 : ¬ k' = k := fun he => h he.symm
        by_cases hq : p.1 = k' <;> simp [updateA, lookupA, hp, hq, h, h2, ih]

@[simp]
theorem lookupA_eraseA {κ β : Type} [DecidableEq κ] (l : List (κ × β))
    (k : κ) (k' : κ) :
    lookupA (eraseA l k) k' = if k = k' then none else lookupA l k' := by
  by_cases h : k = k'
  · subst h
    induction l with
    | nil => simp [eraseA, lookupA]
    | cons p rest ih =>
      by_cases hp : p.1 = k <;> simp [eraseA, lookupA, hp, ih]
  · induction l with
    | nil => simp [eraseA, lookupA, h]
    | cons p rest ih =>
      by_cases hp : p.1 = k
      · have hq : ¬ p.1 = k' := fun he => h (hp.symm.trans he)
        simp [eraseA, lookupA, hp, hq, h, ih]
      · have h2 : ¬ k' = k := fun he => h he.symm
        by_cases hq : p.1 = k' <;> simp [eraseA, lookupA, hp, hq, h, h2, ih]

@[simp]
theorem mem_eraseS (x y : String) (l : List String) :
    x ∈ eraseS y l ↔ x ∈ l ∧ x ≠ y := by
  induction l with
  | nil => simp [eraseS]
  | cons z rest ih =>
    by_cases hz : z = y
    · subst hz
      simp [eraseS, ih]
      tauto
    · simp [eraseS, hz, ih]
      constructor
      · rintro (h | ⟨h1, h2⟩)
        · exact ⟨Or.inl h, h ▸ hz⟩
        · exact ⟨Or.inr h1, h2⟩
      · rintro ⟨h | h, h2⟩
        · exact Or.inl h
        · exact Or.inr ⟨h, h2⟩

@[simp]
theorem mem_insertS (x y : String) (l : List String) :
    x ∈ insertS y l ↔ x ∈ l ∨ x = y := by
  unfold insertS
  by_cases h : y ∈ l
  · simp only [if_pos h]
    constructor
    · exact Or.inl
    · rintro (hx | rfl)
      · exact hx
      · exact h
  · simp only [if_neg h]
    simp [List.mem_append]

theorem eraseS_idem (x : String) (l : List String) :
    eraseS x (eraseS x l) = eraseS x l := by
  induction l with
  | nil => simp [eraseS]
  | cons z rest ih =>
    by_cases hz : z = x <;> simp [eraseS, hz, ih]

/-! ## Registry invariants

`BidirInv` is the bidirectional subscription-consistency invariant of the
spec; `ViewInv` is the viewer-count/subscriber-set synchronisation; the two
auxiliary invariants record that a show with subscribers always has a stats
record and that a show with a stats record always has a subscriber-set
entry — both facts hold in every reachable manager state and are needed to
push the main invariants through broadcasts. -/

def BidirInv (m : ConnectionManager) : Prop :=
  ∀ sid cid, cid ∈ subsOf m sid ↔
    ∃ c, lookupA m.active_connections cid = some c ∧ sid ∈ c.subscribed_shows

def ViewInv (m : ConnectionManager) : Prop :=
  ∀ sid st, lookupA m.live_stats sid = some st →
    st.viewers_count = (subsOf m sid).length

def SubStats (m : ConnectionManager) : Prop :=
  ∀ sid, subsOf m sid ≠ [] → (lookupA m.live_stats sid).isSome

def SubKeyInv (m : ConnectionManager) : Prop :=
  ∀ sid, (lookupA m.live_stats sid).isSome →
    (lookupA m.show_subscribers sid).isSome

/-! ### Characterisation of the per-show cleanup loops -/

theorem discard_from_shows_lookup (cid : String) (shows : List String) :
    ∀ (ss : List (String × List String)) (sid : String),
    lookupA (discard_from_shows cid shows ss) sid =
      if sid ∈ shows then some (eraseS cid ((lookupA ss sid).getD []))
      else lookupA ss sid := by
  induction shows with
  | nil => intro ss sid; simp [discard_from_shows]
  | cons a rest ih =>
    intro ss sid
    simp only [discard_from_shows]
    rw [ih]
    by_cases hmem : sid ∈ rest
    · simp only [hmem, if_pos, List.mem_cons, or_true]
      by_cases ha : a = sid
      · subst ha
        simp [eraseS_idem]
      · simp [ha]
    · by_cases ha : a = sid
      · subst ha
        simp [hmem]
      · have ha' : ¬ sid = a := fun he => ha he.symm
        simp [hmem, ha, ha', List.mem_cons]

theorem cleanup_shows_fst (cid : String) (shows : List String) :
    ∀ ss ls, (cleanup_shows cid shows ss ls).1 = discard_from_shows cid shows ss := by
  induction shows with
  | nil => intro ss ls; rfl
  | cons a rest ih =>
    intro ss ls
    simp only [cleanup_shows, discard_from_shows]
    exact ih _ _

theorem cleanup_shows_snd (cid : String) (shows : List String) :
    ∀ (ss : List (String × List String)) (ls : List (String × LiveStats))
      (sid : String),
    lookupA (cleanup_shows cid shows ss ls).2 sid =
      if sid ∈ shows then
        (lookupA ls sid).map (fun st =>
          { st with viewers_count := (eraseS cid ((lookupA ss sid).getD [])).length })
      else lookupA ls sid := by
  induction shows with
  | nil => intro ss ls sid; simp [cleanup_shows]
  | cons a rest ih =>
    intro ss ls sid
    simp only [cleanup_shows]
    rw [ih]
    by_cases hmem : sid ∈ rest
    · simp only [hmem, if_pos, List.mem_cons, or_true]
      by_cases ha : a = sid
      · subst ha
        cases hls : lookupA ls a with
        | none => simp [hls, eraseS_idem]
        | some st => simp [hls, eraseS_idem]
      · cases hls : lookupA ls a with
        | none => simp [hls, ha]
        | some st => simp [hls, ha]
    · by_cases ha : a = sid
      · subst ha
        cases hls : lookupA ls a with
        | none => simp [hls, hmem]
        | some st => simp [hls, hmem]
      · have ha' : ¬ sid = a := fun he => ha he.symm
        cases hls : lookupA ls a with
        | none => simp [hls, hmem, ha, ha', List.mem_cons]
        | some st => simp [hls, hmem, ha, ha', List.mem_cons]

/-- Unknown identifier: _cleanup_connection is a no-op. -/
theorem cleanup_connection_of_none {m : ConnectionManager} {cid : String}
    (h : lookupA m.active_connections cid = none) :
    cleanup_connection m cid = m := by
  simp [cleanup_connection, h]

/-- Known identifier: the net effect of _cleanup_connection on each
registry. -/
theorem cleanup_connection_eq {m : ConnectionManager} {cid : String}
    {conn : Connection} (h : lookupA m.active_connections cid = some conn) :
    cleanup_connection m cid = { m with
      show_subscribers :=
        discard_from_shows cid conn.subscribed_shows m.show_subscribers
      live_stats :=
        (cleanup_shows cid conn.subscribed_shows m.show_subscribers m.live_stats).2
      user_connections := match conn.user_id with
        | some uid => eraseA m.user_connections uid
        | none => m.user_connections
      active_connections := eraseA m.active_connections cid } := by
  simp [cleanup_connection, h, cleanup_shows_fst]

/-! ### Effect of _check_rate_limit and _send_to_connection on the registries -/

theorem check_rate_active (now : Nat) (m : ConnectionManager) (cid : String) :
    (check_rate_limit now m cid).2.active_connections = m.active_connections := by
  unfold check_rate_limit
  by_cases hk : (lookupA m.rate_limits (cid, now % 60)).isSome <;> simp [hk]

theorem check_rate_subs (now : Nat) (m : ConnectionManager) (cid : String) :
    (check_rate_limit now m cid).2.show_subscribers = m.show_subscribers := by
  unfold check_rate_limit
  by_cases hk : (lookupA m.rate_limits (cid, now % 60)).isSome <;> simp [hk]

theorem check_rate_stats (now : Nat) (m : ConnectionManager) (cid : String) :
    (check_rate_limit now m cid).2.live_stats = m.live_stats := by
  unfold check_rate_limit
  by_cases hk : (lookupA m.rate_limits (cid, now % 60)).isSome <;> simp [hk]

theorem check_rate_users (now : Nat) (m : ConnectionManager) (cid : String) :
    (check_rate_limit now m cid).2.user_connections = m.user_connections := by
  unfold check_rate_limit
  by_cases hk : (lookupA m.rate_limits (cid, now % 60)).isSome <;> simp [hk]

/-- The manager returned by _send_to_connection is either untouched, touched
only in its rate-limit table, or additionally cleaned of the target
connection (transport failure). -/
theorem send_to_connection_fst (wsOk : Nat → Bool) (now : Nat)
    (m : ConnectionManager) (cid : String) (msg : Msg) :
    (send_to_connection wsOk now m cid msg).1 = m ∨
    (send_to_connection wsOk now m cid msg).1 = (check_rate_limit now m cid).2 ∨
    (send_to_connection wsOk now m cid msg).1 =
      cleanup_connection (check_rate_limit now m cid).2 cid := by
  unfold send_to_connection
  cases lookupA m.active_connections cid with
  | none => left; rfl
  | some conn =>
    by_cases hr : (check_rate_limit now m cid).1
    · by_cases hw : wsOk conn.websocket
      · right; left; simp [hr, hw]
      · right; right; simp [hr, hw]
    · right; left; simp [hr]

/-! ### Generic preservation through the broadcast loops -/

theorem send_loop_fst_pres (wsOk : Nat → Bool) (now : Nat)
    {P : ConnectionManager → Prop}
    (hsend : ∀ m cid msg, P m → P (send_to_connection wsOk now m cid msg).1) :
    ∀ (subs : List String) (m : ConnectionManager) (msg : Msg), P m →
      P (send_loop wsOk now subs m msg).1 := by
  intro subs
  induction subs with
  | nil => intro m msg h; exact h
  | cons cid rest ih =>
    intro m msg h
    show P (send_loop wsOk now rest (send_to_connection wsOk now m cid msg).1 msg).1
    exact ih _ _ (hsend _ _ _ h)

theorem foldl_cleanup_pres {P : ConnectionManager → Prop}
    (hcl : ∀ m cid, P m → P (cleanup_connection m cid)) :
    ∀ (l : List String) (m : ConnectionManager), P m →
      P (l.foldl (fun acc cid => cleanup_connection acc cid) m) := by
  intro l
  induction l with
  | nil => intro m h; exact h
  | cons cid rest ih => intro m h; exact ih _ (hcl _ _ h)

/-! ### BidirInv is preserved by every mutating operation -/

theorem bidirInv_of_eq {m m' : ConnectionManager}
    (ha : m'.active_connections = m.active_connections)
    (hs : m'.show_subscribers = m.show_subscribers) (h : BidirInv m) :
    BidirInv m' := by
  intro sid cid
  simp only [subsOf, ha, hs]
  exact h sid cid

theorem bidir_cleanup {m : ConnectionManager} (h : BidirInv m) (cid : String) :
    BidirInv (cleanup_connection m cid) := by
  cases hc : lookupA m.active_connections cid with
  | none => rwa [cleanup_connection_of_none hc]
  | some conn =>
    rw [cleanup_connection_eq hc]
    intro sid cid'
    simp only [subsOf, discard_from_shows_lookup, lookupA_eraseA]
    by_cases hs : sid ∈ conn.subscribed_shows
    · simp only [if_pos hs, Option.getD_some]
      constructor
      · intro hmem
        rw [mem_eraseS] at hmem
        obtain ⟨c, hcl, hcs⟩ := (h sid cid').1 hmem.1
        have hne : ¬ cid = cid' := fun he => hmem.2 he.symm
        exact ⟨c, by simp [hne, hcl], hcs⟩
      · rintro ⟨c, hcl, hcs⟩
        by_cases he : cid = cid'
        · simp [he] at hcl
        · simp only [if_neg he] at hcl
          rw [mem_eraseS]
          exact ⟨(h sid cid').2 ⟨c, hcl, hcs⟩, fun heq => he heq.symm⟩
    · simp only [if_neg hs]
      constructor
      · intro h1
        obtain ⟨c, hcl, hcs⟩ := (h sid cid').1 h1
        by_cases he : cid = cid'
        · subst he
          rw [hc] at hcl
          injection hcl with h2
          exact absurd (h2 ▸ hcs) hs
        · exact ⟨c, by simp [he, hcl], hcs⟩
      · rintro ⟨c, hcl, hcs⟩
        by_cases he : cid = cid'
        · simp [he] at hcl
        · simp only [if_neg he] at hcl
          exact (h sid cid').2 ⟨c, hcl, hcs⟩

theorem bidir_check_rate (now : Nat) (cid : String) {m : ConnectionManager}
    (h : BidirInv m) : BidirInv (check_rate_limit now m cid).2 :=
  bidirInv_of_eq (check_rate_active now m cid) (check_rate_subs now m cid) h

theorem bidir_send (wsOk : Nat → Bool) (now : Nat) (cid : String) (msg : Msg)
    {m : ConnectionManager} (h : BidirInv m) :
    BidirInv (send_to_connection wsOk now m cid msg).1 := by
  rcases send_to_connection_fst wsOk now m cid msg with h1 | h1 | h1 <;> rw [h1]
  · exact h
  · exact bidir_check_rate now cid h
  · exact bidir_cleanup (bidir_check_rate now cid h) cid

theorem bidir_update_stats (now : Nat) (sid : String) (msg : Msg)
    {m : ConnectionManager} (h : BidirInv m) :
    BidirInv (update_show_stats now m sid msg) := by
  intro s c
  simp only [update_show_stats, subsOf]
  exact h s c

theorem bidir_subscribe (wsOk : Nat → Bool) (now : Nat) (cid sid : String)
    {m : ConnectionManager} (h : BidirInv m) :
    BidirInv (subscribe_to_show wsOk now m cid sid).1 := by
  unfold subscribe_to_show
  cases hc : lookupA m.active_connections cid with
  | none => exact h
  | some conn =>
    apply bidir_send
    intro s c
    simp only [subsOf, lookupA_updateA]
    by_cases hcc : cid = c
    · subst hcc
      by_cases hs : sid = s
      · subst hs
        simp [mem_insertS]
      · simp only [if_pos rfl, if_neg hs]
        constructor
        · intro h1
          obtain ⟨c', hcl, hcs⟩ := (h s cid).1 h1
          rw [hc] at hcl
          injection hcl with h2
          exact ⟨_, rfl, by simp [mem_insertS]; exact Or.inl (h2 ▸ hcs)⟩
        · rintro ⟨c', hcl, hcs⟩
          injection hcl with h2
          rw [← h2] at hcs
          simp only [Connection.mk.injEq] at *
          rw [mem_insertS] at hcs
          rcases hcs with h3 | h3
          · exact (h s cid).2 ⟨conn, hc, h3⟩
          · exact absurd h3.symm hs
    · by_cases hs : sid = s
      · subst hs
        simp only [eq_self_iff_true, if_true, if_neg hcc, Option.getD_some]
        rw [mem_insertS]
        constructor
        · rintro (h1 | h1)
          · exact (h sid c).1 h1
          · exact absurd h1.symm hcc
        · intro h1
          exact Or.inl ((h sid c).2 h1)
      · simp only [if_neg hs, if_neg hcc]
        exact h s c

theorem bidir_unsubscribe (ws : Nat) (sid : String) {m : ConnectionManager}
    (h : BidirInv m) : BidirInv (unsubscribe_from_show m ws sid) := by
  unfold unsubscribe_from_show
  split
  · exact h
  · next cid hf =>
    split
    · exact h
    · next conn hc =>
      intro s c
      simp only [subsOf, lookupA_updateA]
      by_cases hcc : cid = c
      · subst hcc
        by_cases hs : sid = s
        · subst hs
          simp only [eq_self_iff_true, if_true, Option.getD_some]
          rw [mem_eraseS]
          simp [mem_eraseS]
        · simp only [eq_self_iff_true, if_true, if_neg hs]
          constructor
          · intro h1
            obtain ⟨c', hcl, hcs⟩ := (h s cid).1 h1
            rw [hc] at hcl
            injection hcl with h2
            refine ⟨_, rfl, ?_⟩
            rw [mem_eraseS]
            exact ⟨h2 ▸ hcs, fun he => hs he.symm⟩
          · rintro ⟨c', hcl, hcs⟩
            injection hcl with h2
            rw [← h2] at hcs
            rw [mem_eraseS] at hcs
            exact (h s cid).2 ⟨conn, hc, hcs.1⟩
      · by_cases hs : sid = s
        · subst hs
          simp only [eq_self_iff_true, if_true, if_neg hcc, Option.getD_some]
          rw [mem_eraseS]
          constructor
          · rintro ⟨h1, _⟩
            exact (h sid c).1 h1
          · intro h1
            exact ⟨(h sid c).2 h1, fun he => hcc he.symm⟩
        · simp only [if_neg hs, if_neg hcc]
          exact h s c

theorem bidir_disconnect (ws : Nat) {m : ConnectionManager} (h : BidirInv m) :
    BidirInv (disconnect m ws) := by
  unfold disconnect
  split
  · exact h
  · next cid hf =>
    split
    · exact h
    · next conn hc =>
      apply bidirInv_of_eq (m := cleanup_connection m cid)
      · rw [cleanup_connection_eq hc]
      · rw [cleanup_connection_eq hc]
      · exact bidir_cleanup h cid

theorem bidir_auth (wsOk : Nat → Bool) (now : Nat) (ws : Nat) (uid : String)
    (uname : Option String) {m : ConnectionManager} (h : BidirInv m) :
    BidirInv (authenticate_connection wsOk now m ws uid uname).1 := by
  unfold authenticate_connection
  split
  · exact h
  · next cid hf =>
    split
    · exact h
    · next conn hc =>
      apply bidir_send
      intro s c
      simp only [subsOf, lookupA_updateA]
      by_cases hcc : cid = c
      · subst hcc
        simp only [if_pos rfl]
        constructor
        · intro h1
          obtain ⟨c', hcl, hcs⟩ := (h s cid).1 h1
          rw [hc] at hcl
          injection hcl with h2
          exact ⟨_, rfl, h2 ▸ hcs⟩
        · rintro ⟨c', hcl, hcs⟩
          injection hcl with h2
          rw [← h2] at hcs
          exact (h s cid).2 ⟨conn, hc, hcs⟩
      · simp only [if_neg hcc]
        exact h s c

theorem bidir_send_user (wsOk : Nat → Bool) (now : Nat) (uid : String)
    (msg : Msg) {m : ConnectionManager} (h : BidirInv m) :
    BidirInv (send_to_user wsOk now m uid msg).1 := by
  unfold send_to_user
  cases lookupA m.user_connections uid with
  | none => exact h
  | some cid => exact bidir_send wsOk now cid msg h

theorem bidir_broadcast (wsOk : Nat → Bool) (now : Nat) (sid : String)
    (msg : Msg) {m : ConnectionManager} (h : BidirInv m) :
    BidirInv (broadcast_to_show wsOk now m sid msg).1 := by
  unfold broadcast_to_show
  cases hs : lookupA m.show_subscribers sid with
  | none => exact h
  | some subs =>
    apply bidir_update_stats
    apply foldl_cleanup_pres (P := BidirInv) (fun m cid h => bidir_cleanup h cid)
    exact send_loop_fst_pres wsOk now (P := BidirInv)
      (fun m cid msg h => bidir_send wsOk now cid msg h) _ _ _ h

theorem bidir_connect (wsOk : Nat → Bool) (now : Nat) (ws : Nat) (cid : String)
    (sid : Option String) {m : ConnectionManager}
    (hfresh : lookupA m.active_connections cid = none) (h : BidirInv m) :
    BidirInv (connect wsOk now m ws cid sid).1 := by
  unfold connect
  apply bidir_send
  have hbase : BidirInv { m with
      active_connections := updateA m.active_connections cid
        { websocket := ws, connection_id := cid, connected_at := now,
          last_ping := now } } := by
    intro s c
    simp only [subsOf, lookupA_updateA]
    by_cases hcc : cid = c
    · subst hcc
      simp only [if_pos rfl]
      constructor
      · intro h1
        obtain ⟨c', hcl, _⟩ := (h s cid).1 h1
        rw [hfresh] at hcl
        cases hcl
      · rintro ⟨c', hcl, hcs⟩
        injection hcl with h2
        rw [← h2] at hcs
        simp at hcs
    · simp only [if_neg hcc]
      exact h s c
  cases sid with
  | none => exact hbase
  | some s => exact bidir_subscribe wsOk now cid s hbase

/-! ### SubKeyInv is preserved by every mutating operation -/

theorem subkey_cleanup {m : ConnectionManager} (h : SubKeyInv m) (cid : String) :
    SubKeyInv (cleanup_connection m cid) := by
  cases hc : lookupA m.active_connections cid with
  | none => rwa [cleanup_connection_of_none hc]
  | some conn =>
    rw [cleanup_connection_eq hc]
    intro sid hst
    simp only [cleanup_shows_snd] at hst
    simp only [discard_from_shows_lookup]
    by_cases hs : sid ∈ conn.subscribed_shows
    · simp [hs]
    · simp only [if_neg hs] at hst ⊢
      exact h sid hst

theorem subkey_check_rate (now : Nat) (cid : String) {m : ConnectionManager}
    (h : SubKeyInv m) : SubKeyInv (check_rate_limit now m cid).2 := by
  intro sid
  rw [check_rate_stats, check_rate_subs]
  exact h sid

theorem subkey_send (wsOk : Nat → Bool) (now : Nat) (cid : String) (msg : Msg)
    {m : ConnectionManager} (h : SubKeyInv m) :
    SubKeyInv (send_to_connection wsOk now m cid msg).1 := by
  rcases send_to_connection_fst wsOk now m cid msg with h1 | h1 | h1 <;> rw [h1]
  · exact h
  · exact subkey_check_rate now cid h
  · exact subkey_cleanup (subkey_check_rate now cid h) cid

theorem subkey_update_stats (now : Nat) (sid : String) (msg : Msg)
    {m : ConnectionManager} (h : SubKeyInv m)
    (hkey : (lookupA m.show_subscribers sid).isSome) :
    SubKeyInv (update_show_stats now m sid msg) := by
  intro s hs
  simp only [update_show_stats, lookupA_updateA] at hs
  by_cases he : sid = s
  · subst he; exact hkey
  · simp only [if_neg he] at hs
    exact h s hs

theorem subs_key_mono_cleanup (m : ConnectionManager) (cid sid : String)
    (hk : (lookupA m.show_subscribers sid).isSome) :
    (lookupA (cleanup_connection m cid).show_subscribers sid).isSome := by
  cases hc : lookupA m.active_connections cid with
  | none => rw [cleanup_connection_of_none hc]; exact hk
  | some conn =>
    rw [cleanup_connection_eq hc]
    simp only [discard_from_shows_lookup]
    by_cases hs : sid ∈ conn.subscribed_shows
    · simp [hs]
    · simp only [if_neg hs]
      exact hk

theorem subs_key_mono_send (wsOk : Nat → Bool) (now : Nat) (cid : String)
    (msg : Msg) (sid : String) {m : ConnectionManager}
    (hk : (lookupA m.show_subscribers sid).isSome) :
    (lookupA (send_to_connection wsOk now m cid msg).1.show_subscribers sid).isSome := by
  rcases send_to_connection_fst wsOk now m cid msg with h1 | h1 | h1 <;> rw [h1]
  · exact hk
  · rw [check_rate_subs]; exact hk
  · exact subs_key_mono_cleanup _ cid sid (by rw [check_rate_subs]; exact hk)

theorem subkey_broadcast (wsOk : Nat → Bool) (now : Nat) (sid : String)
    (msg : Msg) {m : ConnectionManager} (h : SubKeyInv m) :
    SubKeyInv (broadcast_to_show wsOk now m sid msg).1 := by
  unfold broadcast_to_show
  cases hk : lookupA m.show_subscribers sid with
  | none => exact h
  | some subs =>
    apply subkey_update_stats
    · apply foldl_cleanup_pres (P := SubKeyInv) (fun m cid h => subkey_cleanup h cid)
      exact send_loop_fst_pres wsOk now (P := SubKeyInv)
        (fun m cid msg h => subkey_send wsOk now cid msg h) _ _ _ h
    · apply foldl_cleanup_pres
        (P := fun m => (lookupA m.show_subscribers sid).isSome)
        (fun m cid hk => subs_key_mono_cleanup m cid sid hk)
      apply send_loop_fst_pres wsOk now
        (P := fun m => (lookupA m.show_subscribers sid).isSome)
        (fun m cid msg hk => subs_key_mono_send wsOk now cid msg sid hk)
      simp [hk]

theorem subkey_subscribe (wsOk : Nat → Bool) (now : Nat) (cid sid : String)
    {m : ConnectionManager} (h : SubKeyInv m) :
    SubKeyInv (subscribe_to_show wsOk now m cid sid).1 := by
  unfold subscribe_to_show
  cases hc : lookupA m.active_connections cid with
  | none => exact h
  | some conn =>
    apply subkey_send
    intro s hs
    simp only [lookupA_updateA] at hs ⊢
    by_cases he : sid = s
    · simp [he]
    · simp only [if_neg he] at hs ⊢
      exact h s hs

theorem subkey_unsubscribe (ws : Nat) (sid : String) {m : ConnectionManager}
    (h : SubKeyInv m) : SubKeyInv (unsubscribe_from_show m ws sid) := by
  unfold unsubscribe_from_show
  split
  · exact h
  · next cid hf =>
    split
    · exact h
    · next conn hc =>
      intro s hs
      simp only [lookupA_updateA]
      by_cases he : sid = s
      · simp [he]
      · simp only [if_neg he]
        cases hls : lookupA m.live_stats sid with
        | none =>
          simp only [hls] at hs
          exact h s hs
        | some st =>
          simp only [hls, lookupA_updateA, if_neg he] at hs
          exact h s hs

theorem subkey_disconnect (ws : Nat) {m : ConnectionManager} (h : SubKeyInv m) :
    SubKeyInv (disconnect m ws) := by
  unfold disconnect
  split
  · exact h
  · next cid hf =>
    split
    · exact h
    · next conn hc =>
      intro s hs
      simp only [discard_from_shows_lookup]
      by_cases hmem : s ∈ conn.subscribed_shows
      · simp [hmem]
      · simp only [if_neg hmem]
        exact h s hs

theorem subkey_auth (wsOk : Nat → Bool) (now : Nat) (ws : Nat) (uid : String)
    (uname : Option String) {m : ConnectionManager} (h : SubKeyInv m) :
    SubKeyInv (authenticate_connection wsOk now m ws uid uname).1 := by
  unfold authenticate_connection
  split
  · exact h
  · next cid hf =>
    split
    · exact h
    · next conn hc =>
      apply subkey_send
      exact h

theorem subkey_send_user (wsOk : Nat → Bool) (now : Nat) (uid : String)
    (msg : Msg) {m : ConnectionManager} (h : SubKeyInv m) :
    SubKeyInv (send_to_user wsOk now m uid msg).1 := by
  unfold send_to_user
  cases lookupA m.user_connections uid with
  | none => exact h
  | some cid => exact subkey_send wsOk now cid msg h

theorem subkey_connect (wsOk : Nat → Bool) (now : Nat) (ws : Nat) (cid : String)
    (sid : Option String) {m : ConnectionManager} (h : SubKeyInv m) :
    SubKeyInv (connect wsOk now m ws cid sid).1 := by
  unfold connect
  apply subkey_send
  have hbase : SubKeyInv { m with
      active_connections := updateA m.active_connections cid
        { websocket := ws, connection_id := cid, connected_at := now,
          last_ping := now } } := h
  cases sid with
  | none => exact hbase
  | some s => exact subkey_subscribe wsOk now cid s hbase

/-! ### SubStats is preserved by every operation of VStep -/

theorem substats_cleanup {m : ConnectionManager} (h : SubStats m) (cid : String) :
    SubStats (cleanup_connection m cid) := by
  cases hc : lookupA m.active_connections cid with
  | none => rwa [cleanup_connection_of_none hc]
  | some conn =>
    rw [cleanup_connection_eq hc]
    intro sid hne
    simp only [subsOf, discard_from_shows_lookup] at hne
    simp only [cleanup_shows_snd]
    by_cases hs : sid ∈ conn.subscribed_shows
    · simp only [if_pos hs, Option.getD_some] at hne
      simp only [if_pos hs]
      have hsub : subsOf m sid ≠ [] := by
        intro h0
        apply hne
        simp only [subsOf] at h0
        rw [h0]
        rfl
      have hsome := h sid hsub
      cases hls : lookupA m.live_stats sid with
      | none => rw [hls] at hsome; simp at hsome
      | some st => simp [hls]
    · simp only [if_neg hs] at hne ⊢
      exact h sid hne

theorem substats_check_rate (now : Nat) (cid : String) {m : ConnectionManager}
    (h : SubStats m) : SubStats (check_rate_limit now m cid).2 := by
  intro sid
  simp only [subsOf, check_rate_subs, check_rate_stats]
  exact h sid

theorem substats_send (wsOk : Nat → Bool) (now : Nat) (cid : String) (msg : Msg)
    {m : ConnectionManager} (h : SubStats m) :
    SubStats (send_to_connection wsOk now m cid msg).1 := by
  rcases send_to_connection_fst wsOk now m cid msg with h1 | h1 | h1 <;> rw [h1]
  · exact h
  · exact substats_check_rate now cid h
  · exact substats_cleanup (substats_check_rate now cid h) cid

theorem substats_update_stats (now : Nat) (sid : String) (msg : Msg)
    {m : ConnectionManager} (h : SubStats m) :
    SubStats (update_show_stats now m sid msg) := by
  intro s hs
  simp only [update_show_stats, lookupA_updateA]
  by_cases he : sid = s
  · simp [he]
  · simp only [if_neg he]
    exact h s hs

theorem substats_subscribe (wsOk : Nat → Bool) (now : Nat) (cid sid : String)
    {m : ConnectionManager} (h : SubStats m) :
    SubStats (subscribe_to_show wsOk now m cid sid).1 := by
  unfold subscribe_to_show
  cases hc : lookupA m.active_connections cid with
  | none => exact h
  | some conn =>
    apply substats_send
    intro s hs
    simp only [lookupA_updateA]
    by_cases he : sid = s
    · simp [he]
    · simp only [if_neg he]
      apply h s
      simpa only [subsOf, lookupA_updateA, if_neg he] using hs

theorem substats_unsubscribe (ws : Nat) (sid : String) {m : ConnectionManager}
    (h : SubStats m) : SubStats (unsubscribe_from_show m ws sid) := by
  unfold unsubscribe_from_show
  split
  · exact h
  · next cid hf =>
    split
    · exact h
    · next conn hc =>
      intro s hs
      by_cases he : sid = s
      · subst he
        cases hls : lookupA m.live_stats sid with
        | some st => simp [hls, lookupA_updateA]
        | none =>
          exfalso
          have hX : subsOf m sid ≠ [] := by
            intro h0
            apply hs
            simp only [subsOf, lookupA_updateA, eq_self_iff_true, if_true,
              Option.getD_some]
            simp only [subsOf] at h0
            rw [h0]
            rfl
          have hsome := h sid hX
          rw [hls] at hsome
          simp at hsome
      · cases hls : lookupA m.live_stats sid with
        | none =>
          simp only [hls]
          apply h s
          simpa only [subsOf, lookupA_updateA, if_neg he] using hs
        | some st =>
          simp only [hls, lookupA_updateA, if_neg he]
          apply h s
          simpa only [subsOf, lookupA_updateA, if_neg he] using hs

theorem substats_auth (wsOk : Nat → Bool) (now : Nat) (ws : Nat) (uid : String)
    (uname : Option String) {m : ConnectionManager} (h : SubStats m) :
    SubStats (authenticate_connection wsOk now m ws uid uname).1 := by
  unfold authenticate_connection
  split
  · exact h
  · next cid hf =>
    split
    · exact h
    · next conn hc =>
      apply substats_send
      exact h

theorem substats_send_user (wsOk : Nat → Bool) (now : Nat) (uid : String)
    (msg : Msg) {m : ConnectionManager} (h : SubStats m) :
    SubStats (send_to_user wsOk now m uid msg).1 := by
  unfold send_to_user
  cases lookupA m.user_connections uid with
  | none => exact h
  | some cid => exact substats_send wsOk now cid msg h

theorem substats_broadcast (wsOk : Nat → Bool) (now : Nat) (sid : String)
    (msg : Msg) {m : ConnectionManager} (h : SubStats m) :
    SubStats (broadcast_to_show wsOk now m sid msg).1 := by
  unfold broadcast_to_show
  cases hk : lookupA m.show_subscribers sid with
  | none => exact h
  | some subs =>
    apply substats_update_stats
    apply foldl_cleanup_pres (P := SubStats) (fun m cid h => substats_cleanup h cid)
    exact send_loop_fst_pres wsOk now (P := SubStats)
      (fun m cid msg h => substats_send wsOk now cid msg h) _ _ _ h

theorem substats_connect (wsOk : Nat → Bool) (now : Nat) (ws : Nat)
    (cid : String) (sid : Option String) {m : ConnectionManager}
    (h : SubStats m) : SubStats (connect wsOk now m ws cid sid).1 := by
  unfold connect
  apply substats_send
  have hbase : SubStats { m with
      active_connections := updateA m.active_connections cid
        { websocket := ws, connection_id := cid, connected_at := now,
          last_ping := now } } := h
  cases sid with
  | none => exact hbase
  | some s => exact substats_subscribe wsOk now cid s hbase

/-! ### ViewInv is preserved by every operation of VStep -/

theorem statsApply_viewers (st : LiveStats) (msg : Msg) (now : Nat) :
    (statsApply st msg now).viewers_count = st.viewers_count := by
  simp only [statsApply]
  by_cases h1 : msg.type = "score_update"
  · simp only [h1, if_true, eq_self_iff_true]
    by_cases h2 : msg.user_total_points.getD 0 > st.top_performer_points
    · simp [h2]
    · simp [h2]
  · by_cases h3 : msg.type = "episode_event"
    · simp [h1, h3]
    · by_cases h4 : msg.type = "user_prediction" <;> simp [h1, h3, h4]

theorem view_cleanup {m : ConnectionManager} (h : ViewInv m) (cid : String) :
    ViewInv (cleanup_connection m cid) := by
  cases hc : lookupA m.active_connections cid with
  | none => rwa [cleanup_connection_of_none hc]
  | some conn =>
    rw [cleanup_connection_eq hc]
    intro sid st hst
    simp only [cleanup_shows_snd] at hst
    simp only [subsOf, discard_from_shows_lookup]
    by_cases hs : sid ∈ conn.subscribed_shows
    · simp only [if_pos hs] at hst ⊢
      cases hls : lookupA m.live_stats sid with
      | none => rw [hls] at hst; simp at hst
      | some st0 =>
        rw [hls] at hst
        simp only [Option.map_some'] at hst
        injection hst with h2
        rw [← h2]
        simp
    · simp only [if_neg hs] at hst ⊢
      exact h sid st hst

theorem view_check_rate (now : Nat) (cid : String) {m : ConnectionManager}
    (h : ViewInv m) : ViewInv (check_rate_limit now m cid).2 := by
  intro sid st
  simp only [subsOf, check_rate_subs, check_rate_stats]
  exact h sid st

theorem view_send (wsOk : Nat → Bool) (now : Nat) (cid : String) (msg : Msg)
    {m : ConnectionManager} (h : ViewInv m) :
    ViewInv (send_to_connection wsOk now m cid msg).1 := by
  rcases send_to_connection_fst wsOk now m cid msg with h1 | h1 | h1 <;> rw [h1]
  · exact h
  · exact view_check_rate now cid h
  · exact view_cleanup (view_check_rate now cid h) cid

theorem view_update_stats (now : Nat) (sid : String) (msg : Msg)
    {m : ConnectionManager} (hv : ViewInv m) (hs : SubStats m) :
    ViewInv (update_show_stats now m sid msg) := by
  intro s st hst
  simp only [update_show_stats, lookupA_updateA] at hst
  simp only [subsOf, update_show_stats]
  by_cases he : sid = s
  · subst he
    simp only [eq_self_iff_true, if_true] at hst
    injection hst with h2
    rw [← h2, statsApply_viewers]
    cases hls : lookupA m.live_stats sid with
    | some st0 =>
      simp only [Option.getD_some]
      exact hv sid st0 hls
    | none =>
      simp only [Option.getD_none]
      by_cases h0 : subsOf m sid = []
      · simp only [subsOf] at h0
        rw [h0]
        rfl
      · have := hs sid h0
        rw [hls] at this
        simp at this
  · simp only [if_neg he] at hst
    exact hv s st hst

theorem view_subscribe (wsOk : Nat → Bool) (now : Nat) (cid sid : String)
    {m : ConnectionManager} (h : ViewInv m) :
    ViewInv (subscribe_to_show wsOk now m cid sid).1 := by
  unfold subscribe_to_show
  cases hc : lookupA m.active_connections cid with
  | none => exact h
  | some conn =>
    apply view_send
    intro s st hst
    simp only [lookupA_updateA] at hst
    simp only [subsOf, lookupA_updateA]
    by_cases he : sid = s
    · subst he
      simp only [eq_self_iff_true, if_true] at hst ⊢
      injection hst with h2
      rw [← h2]
      rfl
    · simp only [if_neg he] at hst ⊢
      exact h s st hst

theorem view_unsubscribe (ws : Nat) (sid : String) {m : ConnectionManager}
    (h : ViewInv m) : ViewInv (unsubscribe_from_show m ws sid) := by
  unfold unsubscribe_from_show
  split
  · exact h
  · next cid hf =>
    split
    · exact h
    · next conn hc =>
      intro s st hst
      simp only [subsOf, lookupA_updateA]
      by_cases he : sid = s
      · subst he
        simp only [eq_self_iff_true, if_true, Option.getD_some]
        cases hls : lookupA m.live_stats sid with
        | none =>
          simp only [hls] at hst
          exact absurd hst (by simp)
        | some st0 =>
          simp only [hls, lookupA_updateA, eq_self_iff_true, if_true] at hst
          injection hst with h2
          rw [← h2]
      · simp only [if_neg he] at hst ⊢
        cases hls : lookupA m.live_stats sid with
        | none =>
          simp only [hls] at hst
          exact h s st hst
        | some st0 =>
          simp only [hls, lookupA_updateA, if_neg he] at hst
          exact h s st hst

theorem view_auth (wsOk : Nat → Bool) (now : Nat) (ws : Nat) (uid : String)
    (uname : Option String) {m : ConnectionManager} (h : ViewInv m) :
    ViewInv (authenticate_connection wsOk now m ws uid uname).1 := by
  unfold authenticate_connection
  split
  · exact h
  · next cid hf =>
    split
    · exact h
    · next conn hc =>
      apply view_send
      exact h

theorem view_send_user (wsOk : Nat → Bool) (now : Nat) (uid : String)
    (msg : Msg) {m : ConnectionManager} (h : ViewInv m) :
    ViewInv (send_to_user wsOk now m uid msg).1 := by
  unfold send_to_user
  cases lookupA m.user_connections uid with
  | none => exact h
  | some cid => exact view_send wsOk now cid msg h

theorem view_broadcast (wsOk : Nat → Bool) (now : Nat) (sid : String)
    (msg : Msg) {m : ConnectionManager} (hv : ViewInv m) (hs : SubStats m) :
    ViewInv (broadcast_to_show wsOk now m sid msg).1 := by
  unfold broadcast_to_show
  cases hk : lookupA m.show_subscribers sid with
  | none => exact hv
  | some subs =>
    have hpair := foldl_cleanup_pres (P := fun m => ViewInv m ∧ SubStats m)
      (fun m cid h => ⟨view_cleanup h.1 cid, substats_cleanup h.2 cid⟩)
      (send_loop wsOk now subs m
        { msg with show_id := some sid, timestamp := some now }).2.1
      (send_loop wsOk now subs m
        { msg with show_id := some sid, timestamp := some now }).1
      (send_loop_fst_pres wsOk now (P := fun m => ViewInv m ∧ SubStats m)
        (fun m cid msg h => ⟨view_send wsOk now cid msg h.1,
          substats_send wsOk now cid msg h.2⟩) subs m _ ⟨hv, hs⟩)
    exact view_update_stats now sid _ hpair.1 hpair.2

theorem view_connect (wsOk : Nat → Bool) (now : Nat) (ws : Nat) (cid : String)
    (sid : Option String) {m : ConnectionManager} (h : ViewInv m) :
    ViewInv (connect wsOk now m ws cid sid).1 := by
  unfold connect
  apply view_send
  have hbase : ViewInv { m with
      active_connections := updateA m.active_connections cid
        { websocket := ws, connection_id := cid, connected_at := now,
          last_ping := now } } := h
  cases sid with
  | none => exact hbase
  | some s => exact view_subscribe wsOk now cid s hbase

/-! ## The mutating operations of the manager as a step relation

`MStep` covers every complete mutating operation of the ConnectionManager:
registration (with a fresh uuid4 identifier), subscribe, unsubscribe,
authenticate, the two deregistration paths (`disconnect` by websocket and
`_cleanup_connection` by identifier, the latter also being the stale-sweep
and send-failure eviction path), broadcast (including its
broadcast-triggered evictions) and send-to-user.  `VStep` is the same
relation without the `disconnect` path. -/

inductive MStep (wsOk : Nat → Bool) (now : Nat) :
    ConnectionManager → ConnectionManager → Prop where
  | connectC {m : ConnectionManager} (ws : Nat) (cid : String)
      (sid : Option String)
      (hfresh : lookupA m.active_connections cid = none) :
      MStep wsOk now m (connect wsOk now m ws cid sid).1
  | subscribeC {m : ConnectionManager} (cid sid : String) :
      MStep wsOk now m (subscribe_to_show wsOk now m cid sid).1
  | unsubscribeC {m : ConnectionManager} (ws : Nat) (sid : String) :
      MStep wsOk now m (unsubscribe_from_show m ws sid)
  | authC {m : ConnectionManager} (ws : Nat) (uid : String)
      (uname : Option String) :
      MStep wsOk now m (authenticate_connection wsOk now m ws uid uname).1
  | disconnectC {m : ConnectionManager} (ws : Nat) :
      MStep wsOk now m (disconnect m ws)
  | cleanupC {m : ConnectionManager} (cid : String) :
      MStep wsOk now m (cleanup_connection m cid)
  | broadcastC {m : ConnectionManager} (sid : String) (msg : Msg) :
      MStep wsOk now m (broadcast_to_show wsOk now m sid msg).1
  | sendUserC {m : ConnectionManager} (uid : String) (msg : Msg) :
      MStep wsOk now m (send_to_user wsOk now m uid msg).1

/-- Manager states reachable from the freshly constructed manager by any
sequence of mutating operations (each step may see its own transport health
and timestamp). -/
inductive Reach : ConnectionManager → Prop where
  | init : Reach initManager
  | step {m m' : ConnectionManager} (wsOk : Nat → Bool) (now : Nat) :
      Reach m → MStep wsOk now m m' → Reach m'

inductive VStep (wsOk : Nat → Bool) (now : Nat) :
    ConnectionManager → ConnectionManager → Prop where
  | connectC {m : ConnectionManager} (ws : Nat) (cid : String)
      (sid : Option String)
      (hfresh : lookupA m.active_connections cid = none) :
      VStep wsOk now m (connect wsOk now m ws cid sid).1
  | subscribeC {m : ConnectionManager} (cid sid : String) :
      VStep wsOk now m (subscribe_to_show wsOk now m cid sid).1
  | unsubscribeC {m : ConnectionManager} (ws : Nat) (sid : String) :
      VStep wsOk now m (unsubscribe_from_show m ws sid)
  | authC {m : ConnectionManager} (ws : Nat) (uid : String)
      (uname : Option String) :
      VStep wsOk now m (authenticate_connection wsOk now m ws uid uname).1
  | cleanupC {m : ConnectionManager} (cid : String) :
      VStep wsOk now m (cleanup_connection m cid)
  | broadcastC {m : ConnectionManager} (sid : String) (msg : Msg) :
      VStep wsOk now m (broadcast_to_show wsOk now m sid msg).1
  | sendUserC {m : ConnectionManager} (uid : String) (msg : Msg) :
      VStep wsOk now m (send_to_user wsOk now m uid msg).1

/-- Manager states reachable without ever taking the disconnect-by-websocket
deregistration path (cleanup-based deregistration is still allowed). -/
inductive VReach : ConnectionManager → Prop where
  | init : VReach initManager
  | step {m m' : ConnectionManager} (wsOk : Nat → Bool) (now : Nat) :
      VReach m → VStep wsOk now m m' → VReach m'

/-- Every reachable state keys its live-stats records by shows that already
have a subscriber-set entry (needed for the broadcast early-return). -/
theorem subkey_reach {m : ConnectionManager} (h : Reach m) : SubKeyInv m := by
  induction h with
  | init => intro sid hst; simp [initManager, lookupA] at hst
  | step wsOk now hr hstep ih =>
    cases hstep with
    | connectC ws cid sid hfresh => exact subkey_connect wsOk now ws cid sid ih
    | subscribeC cid sid => exact subkey_subscribe wsOk now cid sid ih
    | unsubscribeC ws sid => exact subkey_unsubscribe ws sid ih
    | authC ws uid uname => exact subkey_auth wsOk now ws uid uname ih
    | disconnectC ws => exact subkey_disconnect ws ih
    | cleanupC cid => exact subkey_cleanup ih cid
    | broadcastC sid msg => exact subkey_broadcast wsOk now sid msg ih
    | sendUserC uid msg => exact subkey_send_user wsOk now uid msg ih

/-- C2: for every topic T and connection C, after any complete mutating
operation (subscribe, unsubscribe, deregistration by either path, broadcast
with its evictions, authentication, registration, directed sends), C is in
T's subscriber set iff T is in C's subscription set: the bidirectional
consistency invariant holds in every reachable manager state. -/
theorem reachable_bidirectional_consistency {m : ConnectionManager}
    (h : Reach m) : BidirInv m := by
  induction h with
  | init => intro sid cid; simp [initManager, subsOf, lookupA]
  | step wsOk now hr hstep ih =>
    cases hstep with
    | connectC ws cid sid hfresh => exact bidir_connect wsOk now ws cid sid hfresh ih
    | subscribeC cid sid => exact bidir_subscribe wsOk now cid sid ih
    | unsubscribeC ws sid => exact bidir_unsubscribe ws sid ih
    | authC ws uid uname => exact bidir_auth wsOk now ws uid uname ih
    | disconnectC ws => exact bidir_disconnect ws ih
    | cleanupC cid => exact bidir_cleanup ih cid
    | broadcastC sid msg => exact bidir_broadcast wsOk now sid msg ih
    | sendUserC uid msg => exact bidir_send_user wsOk now uid msg ih

/-- Witness for C2 at a concrete reachable state: register a connection and
subscribe it to a show. -/
theorem reachable_bidirectional_consistency_witness :
    BidirInv (subscribe_to_show (fun _ => true) 5
      (connect (fun _ => true) 5 initManager 1 "c1" none).1 "c1" "s1").1 :=
  reachable_bidirectional_consistency
    (Reach.step (fun _ => true) 5
      (Reach.step (fun _ => true) 5 Reach.init
        (MStep.connectC 1 "c1" none rfl))
      (MStep.subscribeC "c1" "s1"))

/-- C3 (amended): the recorded viewer count equals the subscriber-set size
after every subscribe, unsubscribe and cleanup-style deregistration
(stale sweep, send-failure or broadcast eviction), i.e. in every state
reachable without the disconnect-by-websocket path; that path itself leaves
the viewer count stale (see the counterexample). -/
theorem viewer_count_matches_subscribers_without_disconnect
    {m : ConnectionManager} (h : VReach m) : ViewInv m := by
  have hpair : ViewInv m ∧ SubStats m := by
    induction h with
    | init =>
      constructor
      · intro sid st hst; simp [initManager, lookupA] at hst
      · intro sid hne; simp [initManager, subsOf, lookupA] at hne
    | step wsOk now hr hstep ih =>
      cases hstep with
      | connectC ws cid sid hfresh =>
        exact ⟨view_connect wsOk now ws cid sid ih.1,
               substats_connect wsOk now ws cid sid ih.2⟩
      | subscribeC cid sid =>
        exact ⟨view_subscribe wsOk now cid sid ih.1,
               substats_subscribe wsOk now cid sid ih.2⟩
      | unsubscribeC ws sid =>
        exact ⟨view_unsubscribe ws sid ih.1, substats_unsubscribe ws sid ih.2⟩
      | authC ws uid uname =>
        exact ⟨view_auth wsOk now ws uid uname ih.1,
               substats_auth wsOk now ws uid uname ih.2⟩
      | cleanupC cid =>
        exact ⟨view_cleanup ih.1 cid, substats_cleanup ih.2 cid⟩
      | broadcastC sid msg =>
        exact ⟨view_broadcast wsOk now sid msg ih.1 ih.2,
               substats_broadcast wsOk now sid msg ih.2⟩
      | sendUserC uid msg =>
        exact ⟨view_send_user wsOk now uid msg ih.1,
               substats_send_user wsOk now uid msg ih.2⟩
  exact hpair.1

/-- Witness for the amended C3 at a concrete disconnect-free state. -/
theorem viewer_count_matches_subscribers_witness :
    ViewInv (subscribe_to_show (fun _ => true) 7
      (connect (fun _ => true) 7 initManager 2 "c9" none).1 "c9" "s2").1 :=
  viewer_count_matches_subscribers_without_disconnect
    (VReach.step (fun _ => true) 7
      (VReach.step (fun _ => true) 7 VReach.init
        (VStep.connectC 2 "c9" none rfl))
      (VStep.subscribeC "c9" "s2"))

/-- The reachable state used by the C3 counterexample: one connection
subscribed to show s1 (viewer count 1). -/
def mD1 : ConnectionManager :=
  (connect (fun _ => true) 5 initManager 1 "c1" (some "s1")).1

/-- The C3 counterexample state: the connection has disconnected through the
by-websocket path. -/
def mD2 : ConnectionManager := disconnect mD1 1

/-- C3 counterexample: after `disconnect` (the disconnect-by-websocket
deregistration path) the subscriber set of s1 is empty but the live-stats
record still says one viewer, so the claimed equality fails on this path. -/
theorem disconnect_viewer_count_stale :
    subsOf mD2 "s1" = [] ∧
    lookupA mD2.live_stats "s1" =
      some { show_id := "s1", viewers_count := 1, updated_at := 5 } ∧
    ¬ ViewInv mD2 :=
  ⟨by decide, by decide,
    fun hv => absurd
      (hv "s1" { show_id := "s1", viewers_count := 1, updated_at := 5 }
        (by decide))
      (by decide)⟩

/-- C8: broadcasting to a show whose stats record exists while its
subscriber set is empty delivers nothing, and the only state change is the
message-dependent statistics update (counters bumped according to the
message type and the last-updated stamp set to the send time). -/
theorem broadcast_empty_subscribers_updates_stats
    (wsOk : Nat → Bool) (now : Nat) {m : ConnectionManager} (sid : String)
    (msg : Msg) (st : LiveStats) (h : Reach m)
    (hst : lookupA m.live_stats sid = some st) (hsub : subsOf m sid = []) :
    (broadcast_to_show wsOk now m sid msg).2 = [] ∧
    (broadcast_to_show wsOk now m sid msg).1 =
      update_show_stats now m sid
        { msg with show_id := some sid, timestamp := some now } ∧
    lookupA (broadcast_to_show wsOk now m sid msg).1.live_stats sid =
      some (statsApply st { msg with show_id := some sid, timestamp := some now }
        now) := by
  have hkey : (lookupA m.show_subscribers sid).isSome :=
    subkey_reach h sid (by simp [hst])
  have hsome : lookupA m.show_subscribers sid = some [] := by
    cases hk : lookupA m.show_subscribers sid with
    | none => rw [hk] at hkey; simp at hkey
    | some l =>
      have hl : l = [] := by simpa [subsOf, hk] using hsub
      rw [hl]
  unfold broadcast_to_show
  rw [hsome]
  refine ⟨rfl, rfl, ?_⟩
  simp only [send_loop, List.foldl, update_show_stats, lookupA_updateA,
    eq_self_iff_true, if_true, hst, Option.getD_some]

/-- The reachable state used by the C8 witness: a show with a stats record
whose only subscriber has unsubscribed again. -/
def mW8 : ConnectionManager :=
  unsubscribe_from_show
    (connect (fun _ => true) 5 initManager 1 "c1" (some "s1")).1 1 "s1"

/-- Witness for C8 at a concrete reachable state. -/
theorem broadcast_empty_subscribers_updates_stats_witness :
    (broadcast_to_show (fun _ => true) 9 mW8 "s1"
        { type := "episode_event" }).2 = [] ∧
    (broadcast_to_show (fun _ => true) 9 mW8 "s1"
        { type := "episode_event" }).1 =
      update_show_stats 9 mW8 "s1"
        { type := "episode_event", show_id := some "s1", timestamp := some 9 } ∧
    lookupA (broadcast_to_show (fun _ => true) 9 mW8 "s1"
        { type := "episode_event" }).1.live_stats "s1" =
      some (statsApply { show_id := "s1", viewers_count := 0, updated_at := 5 }
        { type := "episode_event", show_id := some "s1", timestamp := some 9 } 9) :=
  broadcast_empty_subscribers_updates_stats (fun _ => true) 9 "s1"
    { type := "episode_event" }
    { show_id := "s1", viewers_count := 0, updated_at := 5 }
    (Reach.step (fun _ => true) 5
      (Reach.step (fun _ => true) 5 Reach.init
        (MStep.connectC 1 "c1" (some "s1") rfl))
      (MStep.unsubscribeC 1 "s1"))
    (by decide) (by decide)

/-! ## Claims about individual operations -/

/-- C6: deregistration is idempotent — a second _cleanup_connection on the
same identifier is a no-op (no error is possible, the registries are left
exactly as after the first call, and in particular no topic's viewer count
is decremented a second time). -/
theorem cleanup_connection_idempotent (m : ConnectionManager) (cid : String) :
    cleanup_connection (cleanup_connection m cid) cid = cleanup_connection m cid := by
  cases hc : lookupA m.active_connections cid with
  | none => rw [cleanup_connection_of_none hc, cleanup_connection_of_none hc]
  | some conn =>
    apply cleanup_connection_of_none
    rw [cleanup_connection_eq hc]
    simp [lookupA_eraseA]

/-- Repeated calls of _send_to_connection to the same connection with the
same wall-clock timestamp, counting the deliveries that succeed. -/
def send_repeat (wsOk : Nat → Bool) (now : Nat) (m : ConnectionManager)
    (cid : String) (msg : Msg) : Nat → ConnectionManager × Nat
  | 0 => (m, 0)
  | n + 1 =>
    let r := send_to_connection wsOk now m cid msg
    let q := send_repeat wsOk now r.1 cid msg n
    (q.1, (if r.2.1 then 1 else 0) + q.2)

/-- A freshly connected manager with one healthy connection. -/
def mC1 : ConnectionManager :=
  { active_connections := [("c1", { websocket := 1, connection_id := "c1" })] }

/-- C1 (code bug): 15 sends to the same connection within one wall-clock
second deliver exactly ONE message, not the ten the specification (and the
comment inside _check_rate_limit) promises: the per-second key is stored on
the first send and every later send of that second finds it and is silently
dropped (`return False` — no error reaches the broadcaster, and the
connection stays registered). -/
theorem rate_limit_fifteen_sends_one_delivered :
    (send_repeat (fun _ => true) 100 mC1 "c1" { type := "score_update" } 15).2 = 1 ∧
    ¬ ((send_repeat (fun _ => true) 100 mC1 "c1"
        { type := "score_update" } 15).2 = 10) ∧
    lookupA (send_repeat (fun _ => true) 100 mC1 "c1"
        { type := "score_update" } 15).1.active_connections "c1" =
      some { websocket := 1, connection_id := "c1" } := by
  decide

/-- Subscriber c1 of show s1 with a healthy transport. -/
def connA : Connection :=
  { websocket := 1, connection_id := "c1", subscribed_shows := ["s1"] }

/-- Subscriber c2 of show s1 whose transport is dead at broadcast time. -/
def connB : Connection :=
  { websocket := 2, connection_id := "c2", subscribed_shows := ["s1"] }

/-- A show with the two subscribers c1 and c2. -/
def mC7 : ConnectionManager :=
  { active_connections := [("c1", connA), ("c2", connB)]
    show_subscribers := [("s1", ["c1", "c2"])]
    live_stats := [("s1", { show_id := "s1", viewers_count := 2 })] }

/-- Transport health at broadcast time: only websocket 1 (c1) is alive. -/
def wsOk7 : Nat → Bool := fun w => w == 1

/-- C7: broadcasting an episode_event to a show with two subscribers, one of
which has a dead transport, does not abort on the failure: the live
subscriber receives exactly one message carrying the original payload with
the show_id (and timestamp) stamped in, the message type is preserved, and
the dead connection is removed from the registry (and from the subscriber
set) after the broadcast pass while the live one stays registered. -/
theorem broadcast_failure_isolated (now : Nat) (msg : Msg)
    (hty : msg.type = "episode_event") :
    (broadcast_to_show wsOk7 now mC7 "s1" msg).2 =
      [("c1", { msg with show_id := some "s1", timestamp := some now })] ∧
    ({ msg with show_id := some "s1", timestamp := some now } : Msg).type =
      "episode_event" ∧
    lookupA (broadcast_to_show wsOk7 now mC7 "s1" msg).1.active_connections
      "c2" = none ∧
    lookupA (broadcast_to_show wsOk7 now mC7 "s1" msg).1.active_connections
      "c1" = some connA ∧
    subsOf (broadcast_to_show wsOk7 now mC7 "s1" msg).1 "s1" = ["c1"] := by
  refine ⟨?_, hty, ?_, ?_, ?_⟩ <;>
    simp [broadcast_to_show, send_loop, send_to_connection, check_rate_limit,
      cleanup_connection, cleanup_shows, update_show_stats, mC7, connA, connB,
      wsOk7, lookupA, updateA, eraseA, eraseS, subsOf, statsApply, defaultStats,
      Nat.not_lt.mpr (Nat.sub_le now 2)]

/-- The episode_event payload of Scenario B (points 0, payload fields kept
in `extra`). -/
def msgB : Msg :=
  { type := "episode_event", points := some 0,
    extra := [("event_type", "elimination"), ("contestants", "c-17"),
              ("episode", "9")] }

/-- Witness for C7 at the concrete Scenario-B message. -/
theorem broadcast_failure_isolated_witness :
    (broadcast_to_show wsOk7 100 mC7 "s1" msgB).2 =
      [("c1", { msgB with show_id := some "s1", timestamp := some 100 })] ∧
    ({ msgB with show_id := some "s1", timestamp := some 100 } : Msg).type =
      "episode_event" ∧
    lookupA (broadcast_to_show wsOk7 100 mC7 "s1" msgB).1.active_connections
      "c2" = none ∧
    lookupA (broadcast_to_show wsOk7 100 mC7 "s1" msgB).1.active_connections
      "c1" = some connA ∧
    subsOf (broadcast_to_show wsOk7 100 mC7 "s1" msgB).1 "s1" = ["c1"] :=
  broadcast_failure_isolated 100 msgB rfl

/-- C10: when a user's reverse mapping points at their newer connection c2,
deregistering the OLDER authenticated connection c1 still pops the user's
reverse mapping entirely, so a subsequent send_to_user for that user is a
silent no-op (no delivery, state unchanged) even though the live connection
c2 is still registered. -/
theorem stale_connection_cleanup_drops_user_mapping
    (wsOk : Nat → Bool) (now : Nat) (m : ConnectionManager)
    (c1 c2 u : String) (conn conn2 : Connection) (msg : Msg)
    (h1 : lookupA m.active_connections c1 = some conn)
    (h2 : conn.user_id = some u)
    (_h3 : lookupA m.user_connections u = some c2)
    (h4 : c1 ≠ c2)
    (h5 : lookupA m.active_connections c2 = some conn2) :
    lookupA (cleanup_connection m c1).user_connections u = none ∧
    lookupA (cleanup_connection m c1).active_connections c2 = some conn2 ∧
    send_to_user wsOk now (cleanup_connection m c1) u msg =
      (cleanup_connection m c1, []) := by
  have hu : lookupA (cleanup_connection m c1).user_connections u = none := by
    rw [cleanup_connection_eq h1]
    simp [h2, lookupA_eraseA]
  refine ⟨hu, ?_, ?_⟩
  · rw [cleanup_connection_eq h1]
    simp [lookupA_eraseA, h4, h5]
  · unfold send_to_user
    rw [hu]

/-- The C10 witness state: c1 and c2 both connected, both authenticated as
user u (c2 last, so the reverse mapping points at c2). -/
def mC10 : ConnectionManager :=
  (authenticate_connection (fun _ => true) 7
    (authenticate_connection (fun _ => true) 7
      (connect (fun _ => true) 5
        (connect (fun _ => true) 5 initManager 1 "c1" none).1
        2 "c2" none).1
      1 "u" (some "alice")).1
    2 "u" (some "alice")).1

/-- The record of connection c1 in the C10 witness state. -/
def cW1 : Connection :=
  { websocket := 1, connection_id := "c1", user_id := some "u",
    username := some "alice", connected_at := 5, last_ping := 5,
    is_authenticated := true }

/-- The record of connection c2 in the C10 witness state. -/
def cW2 : Connection :=
  { websocket := 2, connection_id := "c2", user_id := some "u",
    username := some "alice", connected_at := 5, last_ping := 5,
    is_authenticated := true }

/-- Witness for C10 at the concrete two-connection state. -/
theorem stale_connection_cleanup_drops_user_mapping_witness :
    lookupA (cleanup_connection mC10 "c1").user_connections "u" = none ∧
    lookupA (cleanup_connection mC10 "c1").active_connections "c2" = some cW2 ∧
    send_to_user (fun _ => true) 9 (cleanup_connection mC10 "c1") "u"
        { type := "score_update" } =
      (cleanup_connection mC10 "c1", []) :=
  stale_connection_cleanup_drops_user_mapping (fun _ => true) 9 mC10
    "c1" "c2" "u" cW1 cW2 { type := "score_update" }
    (by decide) (by decide) (by decide) (by decide) (by decide)

/-! ## Claims about the background task scheduler -/

/-- Normal form of the failure branch of the execution wrapper. -/
theorem task_on_failure_eq (now : Nat) (t : ScheduledTask) :
    task_on_failure now t =
      if t.failure_count + 1 ≥ t.max_failures then
        { t with failure_count := t.failure_count + 1, enabled := false }
      else
        { t with failure_count := t.failure_count + 1,
                 next_run := some (now + 60 * 2 ^ (t.failure_count + 1)) } := by
  unfold task_on_failure
  dsimp only

/-- Behaviour of `k ≤ max_failures` consecutive failing executions: the
failure counter counts them, the task stays enabled strictly below the
threshold and is disabled exactly at it, the next-run is the backoff value
below the threshold and is left untouched by the disabling failure. -/
theorem apply_failures_spec (now : Nat) (t : ScheduledTask)
    (h0 : t.failure_count = 0) :
    ∀ k, k ≤ t.max_failures →
      (apply_failures now t k).failure_count = k ∧
      (apply_failures now t k).max_failures = t.max_failures ∧
      (k < t.max_failures → (apply_failures now t k).enabled = t.enabled) ∧
      (k = t.max_failures → 1 ≤ k → (apply_failures now t k).enabled = false) ∧
      (1 ≤ k → k < t.max_failures →
        (apply_failures now t k).next_run = some (now + 60 * 2 ^ k)) ∧
      (k = t.max_failures → 1 ≤ k →
        (apply_failures now t k).next_run =
          (apply_failures now t (k - 1)).next_run) := by
  intro k
  induction k with
  | zero =>
    intro _
    refine ⟨h0, rfl, fun _ => rfl, ?_, ?_, ?_⟩
    · intro _ h1; exact absurd h1 (by omega)
    · intro h1; exact absurd h1 (by omega)
    · intro _ h1; exact absurd h1 (by omega)
  | succ k ih =>
    intro hk1
    have hk : k ≤ t.max_failures := Nat.le_of_succ_le hk1
    obtain ⟨hcount, hmax, hen, _, _, _⟩ := ih hk
    have hred : apply_failures now t (k + 1) =
        task_on_failure now (apply_failures now t k) := rfl
    rw [hred, task_on_failure_eq, hcount, hmax]
    by_cases hcase : k + 1 ≥ t.max_failures
    · rw [if_pos hcase]
      refine ⟨rfl, rfl, ?_, fun _ _ => rfl, ?_, fun _ _ => rfl⟩
      · intro hlt; exact absurd hlt (Nat.not_lt.mpr hcase)
      · intro _ hlt; exact absurd hlt (Nat.not_lt.mpr hcase)
    · rw [if_neg hcase]
      have hlt : k + 1 < t.max_failures := Nat.not_le.mp hcase
      refine ⟨rfl, rfl, ?_, ?_, fun _ _ => rfl, ?_⟩
      · intro _; exact hen (lt_trans (Nat.lt_succ_self k) hlt)
      · intro heq _; exact absurd heq (Nat.ne_of_lt hlt)
      · intro heq _; exact absurd heq (Nat.ne_of_lt hlt)

/-- C4 (amended): a task whose job fails on every execution stays enabled
through the first max_failures − 1 failures and is disabled exactly at the
max_failures-th consecutive failure; upon disabling the next-run timestamp
is NOT cleared — it is left exactly at its previous (last backoff or
registration) value, and in particular remains set whenever it was set. -/
theorem task_disabled_exactly_at_max_failures (now : Nat) (t : ScheduledTask)
    (h0 : t.failure_count = 0) (he : t.enabled = true)
    (hmf : 1 ≤ t.max_failures) :
    (∀ k, k < t.max_failures → (apply_failures now t k).enabled = true) ∧
    (apply_failures now t t.max_failures).enabled = false ∧
    (apply_failures now t t.max_failures).next_run =
      (apply_failures now t (t.max_failures - 1)).next_run ∧
    (t.next_run.isSome → ((apply_failures now t t.max_failures).next_run).isSome) := by
  have hspec := apply_failures_spec now t h0
  refine ⟨?_, ?_, ?_, ?_⟩
  · intro k hk
    have := (hspec k (le_of_lt hk)).2.2.1 hk
    rw [this, he]
  · exact (hspec t.max_failures le_rfl).2.2.2.1 rfl hmf
  · exact (hspec t.max_failures le_rfl).2.2.2.2.2 rfl hmf
  · intro hns
    rw [(hspec t.max_failures le_rfl).2.2.2.2.2 rfl hmf]
    by_cases h1 : t.max_failures - 1 = 0
    · rw [h1]; exact hns
    · have h1' : 1 ≤ t.max_failures - 1 := Nat.one_le_iff_ne_zero.mpr h1
      have hlt : t.max_failures - 1 < t.max_failures := by omega
      rw [(hspec (t.max_failures - 1) (le_of_lt hlt)).2.2.2.2.1 h1' hlt]
      rfl

/-- A registered interval task (data_sync with max_failures = 3, next run
computed at registration). -/
def tC4 : ScheduledTask :=
  { id := "data_sync", name := "Synchronize External Data",
    schedule_type := "interval", schedule_config := { minutes := some 5 },
    next_run := some 1000 }

/-- C4 counterexample: after its three consecutive failures (handled by the
execution wrapper at time 50) the task is disabled, but the next-run
timestamp is NOT unset — it still holds the second backoff value
50 + 60·2² = 290. -/
theorem disable_keeps_next_run_set :
    (apply_failures 50 tC4 3).enabled = false ∧
    (apply_failures 50 tC4 3).next_run = some 290 ∧
    ¬ ((apply_failures 50 tC4 3).next_run = none) := by
  decide

/-- Witness for the amended C4 at the concrete task tC4. -/
theorem task_disabled_exactly_at_max_failures_witness :
    (∀ k, k < tC4.max_failures → (apply_failures 50 tC4 k).enabled = true) ∧
    (apply_failures 50 tC4 tC4.max_failures).enabled = false ∧
    (apply_failures 50 tC4 tC4.max_failures).next_run =
      (apply_failures 50 tC4 (tC4.max_failures - 1)).next_run ∧
    (tC4.next_run.isSome →
      ((apply_failures 50 tC4 tC4.max_failures).next_run).isSome) :=
  task_disabled_exactly_at_max_failures 50 tC4 rfl rfl (by decide)

/-- One scheduling pass keeps the running-execution keys duplicate-free:
an id is launched only when it is not among the in-flight executions. -/
theorem tick_fold_nodup (now : Nat) :
    ∀ (l : List (String × ScheduledTask)) (acc : BackgroundTaskManager),
      acc.running_tasks.Nodup →
      ((l.foldl (tick_one now) acc).running_tasks).Nodup := by
  intro l
  induction l with
  | nil => intro acc h; exact h
  | cons p rest ih =>
    intro acc h
    apply ih
    unfold tick_one
    by_cases he : p.2.enabled
    · simp only [he, if_true]
      cases hnr : p.2.next_run with
      | none => exact h
      | some nr =>
        by_cases hdue : nr ≤ now
        · simp only [hdue, if_true]
          by_cases hmem : p.1 ∈ acc.running_tasks
          · simp only [hmem, if_true]; exact h
          · simp only [hmem, if_false]
            unfold execute_task
            simp [List.nodup_append, h, hmem]
        · simp only [hdue, if_false]; exact h
    · simp only [he, if_false]; exact h

/-- C5: the scheduler never starts a second execution of a task that is
still in flight — a tick skips due tasks whose id is already among the
running executions, and completions only remove entries, so the in-flight
list stays duplicate-free (at most one execution per task) under every
interleaving of ticks and completions. -/
theorem no_concurrent_executions_per_task
    {tm tm' : BackgroundTaskManager} (hnd : tm.running_tasks.Nodup)
    (hstep : TMStep tm tm') : tm'.running_tasks.Nodup := by
  cases hstep with
  | tick now => exact tick_fold_nodup now tm.tasks tm hnd
  | finish now outcome tid hrun =>
    unfold finish_task
    split
    · exact hnd.erase _
    · exact hnd.erase _

/-- A registered interval task for the C5 witness. -/
def tW5 : ScheduledTask :=
  { id := "leaderboard_update", name := "Update Leaderboards",
    schedule_type := "interval", schedule_config := { minutes := some 10 },
    next_run := some 100 }

/-- Witness for C5: a tick on a state whose only task is due but already
executing leaves the in-flight list duplicate-free. -/
theorem no_concurrent_executions_per_task_witness :
    ((check_and_run_tasks 2000
        { tasks := [("leaderboard_update", tW5)],
          running_tasks := ["leaderboard_update"] }
      : BackgroundTaskManager).running_tasks).Nodup :=
  no_concurrent_executions_per_task (by decide) (TMStep.tick 2000)

/-- C9 (amended): a manual out-of-band trigger of the ML job runs the job
function directly, outside the scheduler and outside the execution wrapper:
the task table (hence every task's next-run, failure counter and enabled
flag), the result table and the in-flight set are all left unchanged —
and consequently NO new Task Result is recorded for the execution. -/
theorem manual_trigger_frame (ok : Bool) (now : Nat)
    (tm : BackgroundTaskManager) :
    (trigger_ml_updates ok now tm).1.tasks = tm.tasks ∧
    (trigger_ml_updates ok now tm).1.task_results = tm.task_results ∧
    (trigger_ml_updates ok now tm).1.running_tasks = tm.running_tasks := by
  cases ok <;> simp [trigger_ml_updates, update_ml_predictions]

/-- A manager with the registered ML task and an empty result table. -/
def tmC9 : BackgroundTaskManager :=
  { tasks := [("ml_predictions_update",
      { id := "ml_predictions_update", name := "Update ML Predictions",
        schedule_type := "interval", schedule_config := { minutes := some 30 },
        priority := TaskPriority.high, next_run := some 1800 })] }

/-- C9 counterexample: a successful manual trigger records no Task Result —
the result table is still empty afterwards, refuting the claim that a new
Task Result is recorded for the triggered execution. -/
theorem manual_trigger_records_no_result :
    (trigger_ml_updates true 50 tmC9).1.task_results = [] ∧
    ¬ ((trigger_ml_updates true 50 tmC9).1.task_results.length =
        tmC9.task_results.length + 1) := by
  decide

end BachelorLeague
